import Mathlib

/-
  Verification development for the email-proxy dispatch endpoint.

  The definitions below are a shallow embedding of the dispatch logic of
  `src/api/send.js` (failure classifier, single-send failover loop, batch
  per-message pipeline with round-robin account picking), together with the
  retrying send wrapper `sendWithAccount` from the legacy iteration kept in
  `src/unnamed/part_002`.  The external mail transport is modelled as an
  oracle that either succeeds with a provider message id or fails with a
  classifiable transport error, exactly the contract the code assumes of
  `transporter.sendMail`.
-/

namespace EmailProxy

/-- A sender-pool account as built in `SENDER_POOL` (send.js lines 15-31):
a label plus opaque user/pass credentials. -/
structure Account where
  label : String
  user : String
  pass : String
deriving Repr, DecidableEq

/-- The observable part of a transport error: `err.responseCode` (absent when
the failure was not an SMTP status) and `err.message`. -/
structure TransportError where
  responseCode : Option Nat
  message : String
deriving Repr, DecidableEq

/-- Result of `classify` in send.js: a retryable flag and a reason string. -/
structure Classification where
  retryable : Bool
  reason : String
deriving Repr, DecidableEq

/-- Whether the pattern list is a prefix of the haystack list (char by char). -/
def leadsWith : List Char → List Char → Bool
  | [], _ => true
  | _ :: _, [] => false
  | p :: ps, h :: hs => p == h && leadsWith ps hs

/-- Whether the pattern occurs as a contiguous substring of the haystack. -/
def hasSub (pat : List Char) : List Char → Bool
  | [] => pat.isEmpty
  | h :: t => leadsWith pat (h :: t) || hasSub pat t

/-- Case-insensitive substring test: embeds a `/pattern/i.test(msg)` regex
test for a pattern with no metacharacters. -/
def hasSubCI (hay pat : String) : Bool :=
  hasSub (pat.toList.map Char.toLower) (hay.toList.map Char.toLower)

/-- Embeds `/Daily user sending limit exceeded/i.test(msg)` (send.js line 69). -/
def dailyLimitMsg (msg : String) : Bool :=
  hasSubCI msg "Daily user sending limit exceeded"

/-- Embeds `/ETIMEDOUT|ECONNRESET|Timeout/i.test(msg)` (send.js line 75). -/
def timeoutMsg (msg : String) : Bool :=
  hasSubCI msg "ETIMEDOUT" || hasSubCI msg "ECONNRESET" || hasSubCI msg "Timeout"

/-- The failure classifier of `src/api/send.js` (lines 66-78), with the JS
`msg || "Unknown error"` fallback for an empty message in the final branch. -/
def classify (err : TransportError) : Classification :=
  let code := err.responseCode
  let msg := err.message
  if dailyLimitMsg msg then
    { retryable := false, reason := "Daily limit" }
  else if code == some 550 || code == some 553 || code == some 554 then
    { retryable := false, reason := "Recipient rejected" }
  else if code == some 421 || code == some 451 || code == some 452 then
    { retryable := true, reason := "Temporary failure" }
  else if timeoutMsg msg then
    { retryable := true, reason := "Network timeout" }
  else
    { retryable := false, reason := if msg = "" then "Unknown error" else msg }

/-- The failure classifier of the legacy iteration in `src/unnamed/part_002`
(lines 118-130); it checks the SMTP status codes before the quota message. -/
def classifyP2 (err : TransportError) : Classification :=
  let code := err.responseCode
  let msg := err.message
  if code == some 421 || code == some 451 || code == some 452 then
    { retryable := true, reason := "Temporary failure" }
  else if code == some 550 || code == some 553 || code == some 554 then
    { retryable := false, reason := "Recipient rejected" }
  else if dailyLimitMsg msg then
    { retryable := false, reason := "Daily limit" }
  else if timeoutMsg msg then
    { retryable := true, reason := "Network timeout" }
  else
    { retryable := false, reason := if msg = "" then "Unknown error" else msg }

/-- The failure taxonomy named by the specification. -/
inductive FailureReason where
  | DailyLimit
  | RecipientRejected
  | TemporaryFailure
  | NetworkTimeout
  | Unknown
deriving Repr, DecidableEq

/-- Modelled from the spec's words (section 4.4), for comparison with
`classify`: first-match-wins precedence quota-message, permanent SMTP codes,
temporary SMTP codes, timeout signatures, otherwise Unknown. -/
def specReason (err : TransportError) : FailureReason :=
  if dailyLimitMsg err.message then .DailyLimit
  else if err.responseCode == some 550 || err.responseCode == some 553
      || err.responseCode == some 554 then .RecipientRejected
  else if err.responseCode == some 421 || err.responseCode == some 451
      || err.responseCode == some 452 then .TemporaryFailure
  else if timeoutMsg err.message then .NetworkTimeout
  else .Unknown

/-- Modelled from the spec's words: only TemporaryFailure and NetworkTimeout
are retryable. -/
def specRetryable : FailureReason → Bool
  | .TemporaryFailure => true
  | .NetworkTimeout => true
  | _ => false

/-- The reason string the code attaches to each spec-level category; an
Unknown failure carries the raw transport message (or "Unknown error"). -/
def reasonText (err : TransportError) (r : FailureReason) : String :=
  match r with
  | .DailyLimit => "Daily limit"
  | .RecipientRejected => "Recipient rejected"
  | .TemporaryFailure => "Temporary failure"
  | .NetworkTimeout => "Network timeout"
  | .Unknown => if err.message = "" then "Unknown error" else err.message

/-- C4: the failure classifier is a pure function of the transport error's
status code and message text (it is a function of `TransportError`, which
carries exactly those two fields), and it realises the spec's first-match-wins
precedence: quota message to DailyLimit (not retryable), 550/553/554 to
RecipientRejected (not retryable), 421/451/452 to TemporaryFailure
(retryable), timeout signatures to NetworkTimeout (retryable), everything
else to Unknown (not retryable). -/
theorem classify_matches_spec (err : TransportError) :
    (classify err).retryable = specRetryable (specReason err) ∧
    (classify err).reason = reasonText err (specReason err) := by
  unfold classify specReason specRetryable reasonText
  split_ifs <;> simp_all


/-- One iteration step of the `pickAccount` loop (send.js lines 252-259):
at current `step`, probe `pool[(s + step) % pool.length]`; skip it while it is
in the disabled set; `fuel` counts the iterations left (the JS loop runs
`pool.length` times in total). -/
def pickFuel (pool : List Account) (dis : List String) (s : Nat) :
    Nat → Nat → Option Account
  | _step, 0 => none
  | step, fuel + 1 =>
    match pool[(s + step) % pool.length]? with
    | some a => if dis.contains a.user then pickFuel pool dis s (step + 1) fuel else some a
    | none => none

/-- `pickAccount(startIndex)` of send.js lines 252-259: the first account at
or after `s` in pool order, wrapping modulo the pool size, whose user is not
in the disabled set; `none` when all are disabled. -/
def pick (pool : List Account) (dis : List String) (s : Nat) : Option Account :=
  pickFuel pool dis s 0 pool.length

theorem pickFuel_eq_none_iff (pool : List Account) (dis : List String) (s : Nat) :
    ∀ fuel step, pickFuel pool dis s step fuel = none ↔
      ∀ j, step ≤ j → j < step + fuel →
        ∀ a, pool[(s + j) % pool.length]? = some a → a.user ∈ dis := by
  intro fuel
  induction fuel with
  | zero =>
    intro step
    simp only [pickFuel, true_iff]
    intro j hj hj'
    omega
  | succ f ih =>
    intro step
    constructor
    · intro h j hj hj' a ha
      rcases Nat.eq_or_lt_of_le hj with heq | hlt2
      · subst heq
        by_cases hc : a.user ∈ dis
        · exact hc
        · exfalso
          simp [pickFuel, ha, hc] at h
      · cases hg : pool[(s + step) % pool.length]? with
        | none =>
          exfalso
          have h1 := List.getElem?_eq_none_iff.mp hg
          have hn0 : pool.length = 0 := by
            by_contra hne
            have := Nat.mod_lt (s + step) (Nat.pos_of_ne_zero hne)
            omega
          rw [List.length_eq_zero] at hn0
          subst hn0
          simp at ha
        | some b =>
          by_cases hc : b.user ∈ dis
          · have h' : pickFuel pool dis s (step + 1) f = none := by
              simpa [pickFuel, hg, hc] using h
            exact (ih (step + 1)).mp h' j (by omega) (by omega) a ha
          · exfalso
            simp [pickFuel, hg, hc] at h
    · intro h
      cases hg : pool[(s + step) % pool.length]? with
      | none => simp [pickFuel, hg]
      | some b =>
        have hb : b.user ∈ dis := h step le_rfl (by omega) b hg
        have h' : pickFuel pool dis s (step + 1) f = none :=
          (ih (step + 1)).mpr (fun j hj hj' a ha => h j (by omega) (by omega) a ha)
        simp [pickFuel, hg, hb, h']

theorem pickFuel_eq_some (pool : List Account) (dis : List String) (s : Nat) :
    ∀ fuel step a, pickFuel pool dis s step fuel = some a →
      a.user ∉ dis ∧
      ∃ j, step ≤ j ∧ j < step + fuel ∧
        pool[(s + j) % pool.length]? = some a ∧
        ∀ k, step ≤ k → k < j →
          ∃ b, pool[(s + k) % pool.length]? = some b ∧ b.user ∈ dis := by
  intro fuel
  induction fuel with
  | zero => intro step a h; simp [pickFuel] at h
  | succ f ih =>
    intro step a h
    cases hg : pool[(s + step) % pool.length]? with
    | none => simp [pickFuel, hg] at h
    | some b =>
      by_cases hc : b.user ∈ dis
      · have h' : pickFuel pool dis s (step + 1) f = some a := by
          simpa [pickFuel, hg, hc] using h
        obtain ⟨hnd, j, hj1, hj2, hj3, hj4⟩ := ih (step + 1) a h'
        refine ⟨hnd, j, by omega, by omega, hj3, ?_⟩
        intro k hk1 hk2
        rcases Nat.eq_or_lt_of_le hk1 with heq | hlt
        · exact ⟨b, heq ▸ hg, hc⟩
        · exact hj4 k (by omega) hk2
      · have hab : b = a := by
          simpa [pickFuel, hg, hc] using h
        subst hab
        exact ⟨hc, step, le_rfl, by omega, hg, fun k hk1 hk2 => by omega⟩

/-- Any account returned by `pick` is not in the disabled set. -/
theorem pick_not_disabled (pool : List Account) (dis : List String) (s : Nat)
    (a : Account) (h : pick pool dis s = some a) : a.user ∉ dis :=
  (pickFuel_eq_some pool dis s pool.length 0 a h).1

/-- `pick` returns `none` exactly when every pool member's user is disabled. -/
theorem pick_eq_none_iff (pool : List Account) (dis : List String) (s : Nat) :
    pick pool dis s = none ↔ ∀ a, a ∈ pool → a.user ∈ dis := by
  rw [pick, pickFuel_eq_none_iff]
  constructor
  · intro h a ha
    obtain ⟨m, hm, hget⟩ := List.mem_iff_getElem.mp ha
    have hn : 0 < pool.length := Nat.lt_of_le_of_lt (Nat.zero_le m) hm
    have hsn : s % pool.length < pool.length := Nat.mod_lt _ hn
    have hmod : (s + (pool.length - s % pool.length + m) % pool.length) % pool.length = m := by
      have h1 : pool.length * (s / pool.length) + s % pool.length = s :=
        Nat.div_add_mod s pool.length
      have h2 : pool.length * (s / pool.length + 1) =
          pool.length * (s / pool.length) + pool.length := by ring
      have e1 : (s + (pool.length - s % pool.length + m) % pool.length) % pool.length =
          (s + (pool.length - s % pool.length + m)) % pool.length :=
        Nat.add_mod_mod s (pool.length - s % pool.length + m) pool.length
      have e2 : s + (pool.length - s % pool.length + m) =
          pool.length * (s / pool.length + 1) + m := by omega
      rw [e1, e2, Nat.mul_add_mod, Nat.mod_eq_of_lt hm]
    refine h ((pool.length - s % pool.length + m) % pool.length) (Nat.zero_le _)
      (by simpa using Nat.mod_lt (pool.length - s % pool.length + m) hn) a ?_
    rw [hmod, List.getElem?_eq_getElem hm, hget]
  · intro h j _ _ a ha
    exact h a (List.getElem?_mem ha)

/-- C5: `pick(startIndex)` returns the first account at or after `startIndex`
in registry order, wrapping modulo the pool size, that is not quota-disabled
(every slot probed before it is disabled and the result itself is not); it
returns none exactly when every account is disabled; and with every account
healthy it returns the account at position `startIndex mod poolsize`, so in a
batch message `i` is assigned the account at position `i mod poolsize` (for
4 messages over 2 healthy accounts, messages 0,2 go to the account at index
0 and messages 1,3 to the account at index 1). -/
theorem pick_spec (pool : List Account) (dis : List String) (s : Nat) :
    (∀ a, pick pool dis s = some a →
      a.user ∉ dis ∧
      ∃ j, j < pool.length ∧
        pool[(s + j) % pool.length]? = some a ∧
        ∀ k, k < j →
          ∃ b, pool[(s + k) % pool.length]? = some b ∧ b.user ∈ dis) ∧
    (pick pool dis s = none ↔ ∀ a, a ∈ pool → a.user ∈ dis) ∧
    (pool.length ≠ 0 → dis = [] → pick pool dis s = pool[s % pool.length]?) := by
  refine ⟨?_, pick_eq_none_iff pool dis s, ?_⟩
  · intro a h
    obtain ⟨hnd, j, _, hj2, hj3, hj4⟩ := pickFuel_eq_some pool dis s pool.length 0 a h
    exact ⟨hnd, j, by omega, hj3, fun k hk => hj4 k (Nat.zero_le k) hk⟩
  · intro hn hdis
    subst hdis
    cases pool with
    | nil => simp at hn
    | cons hd tl =>
      cases hg : (hd :: tl)[s % (hd :: tl).length]? with
      | none =>
        exfalso
        have h1 := List.getElem?_eq_none_iff.mp hg
        have h2 : s % (hd :: tl).length < (hd :: tl).length :=
          Nat.mod_lt _ (by simp)
        omega
      | some b =>
        simp only [List.length_cons] at hg
        simp only [pick, List.length_cons, pickFuel, Nat.add_zero]
        rw [hg]
        simp

/-- Witness for C5 at a concrete input: with a healthy pool of two accounts,
message index 3 is assigned the account at position 3 mod 2 = 1. -/
theorem pick_spec_witness :
    pick [⟨"PRIMARY", "a@x.com", "p1"⟩, ⟨"BACKUP_A", "b@x.com", "p2"⟩] [] 3 =
      [(⟨"PRIMARY", "a@x.com", "p1"⟩ : Account), ⟨"BACKUP_A", "b@x.com", "p2"⟩][3 %
        ([(⟨"PRIMARY", "a@x.com", "p1"⟩ : Account),
          ⟨"BACKUP_A", "b@x.com", "p2"⟩].length)]? :=
  (pick_spec [⟨"PRIMARY", "a@x.com", "p1"⟩, ⟨"BACKUP_A", "b@x.com", "p2"⟩] [] 3).2.2
    (by decide) rfl

/-- What one call of `transporter.sendMail` produces, as assumed by the code:
either a provider message id, or a thrown transport error (send.js catches
it in `sendOnceWithAccount`). -/
inductive SendResult where
  | success (messageId : String)
  | failure (err : TransportError)
deriving Repr, DecidableEq

/-- The value `sendOnceWithAccount` resolves with (send.js lines 104-114):
`{ok: true, account, info}` or `{ok: false, account, error, classify}`. -/
inductive SendOut where
  | okOut (acc : Account) (messageId : String)
  | failOut (acc : Account) (err : TransportError) (cls : Classification)
deriving Repr, DecidableEq

/-- `sendOnceWithAccount` of send.js lines 104-114: one transport attempt on
the given account; a thrown error is caught and classified. -/
def sendOnceWithAccount (acc : Account) (r : SendResult) : SendOut :=
  match r with
  | .success mid => .okOut acc mid
  | .failure e => .failOut acc e (classify e)

/-- The JS fallback chain `out.classify?.reason || out.error?.message ||
"unknown"` used to surface a failure reason (send.js lines 211, 296). -/
def surfaceReason (cls : Classification) (e : TransportError) : String :=
  if cls.reason ≠ "" then cls.reason
  else if e.message ≠ "" then e.message
  else "unknown"

/-- The JS fallback `lastError?.message || "Unknown error"` for the terminal
all-accounts-failed response (send.js line 235). -/
def lastErrDetail : Option TransportError → String
  | none => "Unknown error"
  | some e => if e.message = "" then "Unknown error" else e.message

/-- The three responses the single-send path can produce: HTTP 200
`{message, recipient, sender, id}`, HTTP 502 `{error: "Send failed", detail}`,
or HTTP 500 `{error: "Failed to send email on all accounts", detail}`. -/
inductive SingleResp where
  | sent (recipient : String) (sender : String) (id : String)
  | sendFailed (detail : String)
  | allFailed (detail : String)
deriving Repr, DecidableEq

/-- The single-send loop of send.js lines 187-237, instrumented to also
return the list of accounts on which a delivery was attempted.  For each
account in pool order: attempt once; on success respond 200; on a failure
whose classification reason is not "Daily limit" respond 502 with the
surfaced reason; otherwise remember the error and move to the next account;
when the pool is exhausted respond 500 with the last error's message. -/
def singleAux (tr : Account → SendResult) (rcpt : String) :
    List Account → Option TransportError → SingleResp × List Account
  | [], last => (.allFailed (lastErrDetail last), [])
  | acc :: rest, _last =>
    match sendOnceWithAccount acc (tr acc) with
    | .okOut _ mid => (.sent rcpt acc.user mid, [acc])
    | .failOut _ e cls =>
      if cls.reason = "Daily limit" then
        let p := singleAux tr rcpt rest (some e)
        (p.1, acc :: p.2)
      else
        (.sendFailed (surfaceReason cls e), [acc])

/-- The single-message path `sendOne` (send.js lines 183-238): iterate the
pool in registry order starting with no previous error. -/
def singleSend (tr : Account → SendResult) (rcpt : String) (pool : List Account) :
    SingleResp × List Account :=
  singleAux tr rcpt pool none

/-- C1: in the single-message path, after a failed delivery attempt the
engine moves on to the next account if and only if the failure is classified
"Daily limit": on a daily-limit failure the loop continues into the rest of
the pool (recording the attempt and the error), and on any other
classification it stops, surfaces that failure's classification reason as the
502 detail, and attempts no further account. -/
theorem singleSend_next_account_iff_daily_limit
    (tr : Account → SendResult) (rcpt : String) (acc : Account)
    (rest : List Account) (last : Option TransportError) (e : TransportError)
    (hfail : tr acc = .failure e) :
    ((classify e).reason = "Daily limit" →
      singleAux tr rcpt (acc :: rest) last =
        ((singleAux tr rcpt rest (some e)).1, acc :: (singleAux tr rcpt rest (some e)).2)) ∧
    ((classify e).reason ≠ "Daily limit" →
      singleAux tr rcpt (acc :: rest) last =
        (.sendFailed (surfaceReason (classify e) e), [acc])) := by
  constructor
  · intro hdaily
    simp [singleAux, sendOnceWithAccount, hfail, hdaily]
  · intro hnot
    simp [singleAux, sendOnceWithAccount, hfail, hnot]

/-- Witness for C1 at a concrete input: a 550 recipient rejection on the
first account stops the iteration at that account and surfaces the
classification. -/
theorem singleSend_next_account_iff_daily_limit_witness :
    singleAux (fun _ => .failure ⟨some 550, "mailbox unavailable"⟩) "r@x.com"
        [⟨"PRIMARY", "a@x.com", "p1"⟩, ⟨"BACKUP_A", "b@x.com", "p2"⟩] none =
      (.sendFailed (surfaceReason (classify ⟨some 550, "mailbox unavailable"⟩)
        ⟨some 550, "mailbox unavailable"⟩), [⟨"PRIMARY", "a@x.com", "p1"⟩]) :=
  (singleSend_next_account_iff_daily_limit
    (fun _ => .failure ⟨some 550, "mailbox unavailable"⟩) "r@x.com"
    ⟨"PRIMARY", "a@x.com", "p1"⟩ [⟨"BACKUP_A", "b@x.com", "p2"⟩] none
    ⟨some 550, "mailbox unavailable"⟩ rfl).2 (by decide)

theorem singleAux_all_daily (tr : Account → SendResult) (rcpt : String) :
    ∀ (pool : List Account) (hne : pool ≠ [])
      (_hall : ∀ acc ∈ pool, ∃ e, tr acc = .failure e ∧ (classify e).reason = "Daily limit")
      (eL : TransportError) (_hl : tr (pool.getLast hne) = .failure eL)
      (last : Option TransportError),
      (singleAux tr rcpt pool last).1 = .allFailed (lastErrDetail (some eL)) := by
  intro pool
  induction pool with
  | nil => intro hne; exact absurd rfl hne
  | cons acc rest ih =>
    intro hne hall eL hl last
    obtain ⟨e, he, hdaily⟩ := hall acc (List.mem_cons_self acc rest)
    cases rest with
    | nil =>
      have hacc : (acc :: List.nil).getLast hne = acc := rfl
      rw [hacc] at hl
      rw [hl] at he
      cases he
      simp [singleAux, sendOnceWithAccount, hl, hdaily]
    | cons b bs =>
      have hrest : (b :: bs) ≠ [] := by simp
      have hlast : (acc :: b :: bs).getLast hne = (b :: bs).getLast hrest :=
        List.getLast_cons hrest
      rw [hlast] at hl
      have ih' := ih hrest (fun a ha => hall a (List.mem_cons_of_mem acc ha)) eL hl (some e)
      simp only [singleAux, sendOnceWithAccount, he, hdaily, if_true]
      simpa using ih'

/-- C8: in the single-message path, when every account's attempt fails (all
with the daily-limit classification, the only way the loop exhausts the
pool), `sendOne` returns the terminal 500 failure whose detail carries the
message of the last observed error, the one from the final account. -/
theorem singleSend_all_exhausted_carries_last_error
    (tr : Account → SendResult) (rcpt : String) (pool : List Account)
    (hne : pool ≠ [])
    (hall : ∀ acc ∈ pool, ∃ e, tr acc = .failure e ∧ (classify e).reason = "Daily limit")
    (eL : TransportError) (hl : tr (pool.getLast hne) = .failure eL) :
    (singleSend tr rcpt pool).1 = .allFailed (lastErrDetail (some eL)) :=
  singleAux_all_daily tr rcpt pool hne hall eL hl none

/-- Witness for C8 at a concrete input: both accounts fail with the daily
limit message, and the terminal failure carries that message. -/
theorem singleSend_all_exhausted_carries_last_error_witness :
    (singleSend (fun _ => .failure ⟨some 550, "Daily user sending limit exceeded"⟩)
        "r@x.com" [⟨"PRIMARY", "a@x.com", "p1"⟩, ⟨"BACKUP_A", "b@x.com", "p2"⟩]).1 =
      .allFailed "Daily user sending limit exceeded" := by
  have h := singleSend_all_exhausted_carries_last_error
    (fun _ => .failure ⟨some 550, "Daily user sending limit exceeded"⟩) "r@x.com"
    [⟨"PRIMARY", "a@x.com", "p1"⟩, ⟨"BACKUP_A", "b@x.com", "p2"⟩] (by decide)
    (fun acc _ => ⟨⟨some 550, "Daily user sending limit exceeded"⟩, rfl, by decide⟩)
    ⟨some 550, "Daily user sending limit exceeded"⟩ rfl
  simpa [lastErrDetail] using h

/-- A retryable classification can only be "Temporary failure" or
"Network timeout". -/
theorem classify_retryable_reason (e : TransportError)
    (h : (classify e).retryable = true) :
    (classify e).reason = "Temporary failure" ∨ (classify e).reason = "Network timeout" := by
  unfold classify at h ⊢
  dsimp only at h ⊢
  split_ifs at h ⊢ <;> simp_all

/-- The value the legacy `sendWithAccount` resolves with
(src/unnamed/part_002 lines 157-183): success carries a `retried` flag. -/
inductive SendOutR where
  | okR (acc : Account) (messageId : String) (retried : Bool)
  | failR (acc : Account) (err : TransportError) (cls : Classification)
deriving Repr, DecidableEq

/-- `sendWithAccount` of src/unnamed/part_002 lines 157-183: one attempt on
the account's transporter; if the first failure classifies as retryable,
exactly one immediate retry on the same transporter (after a sleep, which has
no observable effect here); the second component counts the transport calls
made.  `tr n` is the transport's answer to the n-th call for this
account/message pair. -/
def sendWithAccount (acc : Account) (tr : Nat → SendResult) : SendOutR × Nat :=
  match tr 0 with
  | .success mid => (.okR acc mid false, 1)
  | .failure e1 =>
    let c1 := classifyP2 e1
    if c1.retryable then
      match tr 1 with
      | .success mid2 => (.okR acc mid2 true, 2)
      | .failure e2 => (.failR acc e2 (classifyP2 e2), 2)
    else (.failR acc e1 c1, 1)

/-- C6: for a retryable failure, at most one immediate retry is performed and
it stays on the same account (the legacy `sendWithAccount` wrapper makes at
most 2 transport calls, makes a second call only when the first failed with a
retryable classification, and a failing retry yields a terminal failure bound
to the same account); and in the send.js dispatch loop a retryable-classified
failure never causes a switch to a different account: the single-send loop
stops at that account with a 502. -/
theorem retryable_failure_retry_once_same_account
    (acc : Account) (tr : Nat → SendResult) :
    (sendWithAccount acc tr).2 ≤ 2 ∧
    ((sendWithAccount acc tr).2 = 2 →
      ∃ e1, tr 0 = .failure e1 ∧ (classifyP2 e1).retryable = true) ∧
    (∀ e1 e2, tr 0 = .failure e1 → (classifyP2 e1).retryable = true →
      tr 1 = .failure e2 →
      (sendWithAccount acc tr).1 = .failR acc e2 (classifyP2 e2)) ∧
    (∀ (trS : Account → SendResult) (rcpt : String) (rest : List Account)
      (last : Option TransportError) (e : TransportError),
      trS acc = .failure e → (classify e).retryable = true →
      singleAux trS rcpt (acc :: rest) last =
        (.sendFailed (surfaceReason (classify e) e), [acc])) := by
  refine ⟨?_, ?_, ?_, ?_⟩
  · cases h0 : tr 0 with
    | success mid => simp [sendWithAccount, h0]
    | failure e1 =>
      by_cases hr : (classifyP2 e1).retryable
      · cases h1 : tr 1 with
        | success mid2 => simp [sendWithAccount, h0, hr, h1]
        | failure e2 => simp [sendWithAccount, h0, hr, h1]
      · simp [sendWithAccount, h0, hr]
  · intro h2
    cases h0 : tr 0 with
    | success mid => simp [sendWithAccount, h0] at h2
    | failure e1 =>
      by_cases hr : (classifyP2 e1).retryable
      · exact ⟨e1, rfl, hr⟩
      · simp [sendWithAccount, h0, hr] at h2
  · intro e1 e2 h0 hr h1
    simp [sendWithAccount, h0, hr, h1]
  · intro trS rcpt rest last e h hr
    have hnd : (classify e).reason ≠ "Daily limit" := by
      rcases classify_retryable_reason e hr with h1 | h1 <;> simp [h1]
    simp [singleAux, sendOnceWithAccount, h, hnd]

/-- Witness for C6 at a concrete input: two consecutive 421 temporary
failures; the wrapper makes exactly two calls on the same account and the
result is the terminal failure from the second error. -/
theorem retryable_failure_retry_once_same_account_witness :
    (sendWithAccount ⟨"PRIMARY", "a@x.com", "p1"⟩
        (fun _ => .failure ⟨some 421, "slow down"⟩)).1 =
      .failR ⟨"PRIMARY", "a@x.com", "p1"⟩ ⟨some 421, "slow down"⟩
        (classifyP2 ⟨some 421, "slow down"⟩) :=
  (retryable_failure_retry_once_same_account ⟨"PRIMARY", "a@x.com", "p1"⟩
    (fun _ => .failure ⟨some 421, "slow down"⟩)).2.2.1
    ⟨some 421, "slow down"⟩ ⟨some 421, "slow down"⟩ rfl (by decide) rfl

/-- One per-message result object of the batch path (send.js lines 267-271,
289-294, 321-327, 347, 364-368, 386); `recipient` is the JS field `to`. -/
structure BatchItem where
  ok : Bool
  recipient : String
  sender : Option String := none
  id : Option String := none
  reassigned : Bool := false
  error : Option String := none
deriving Repr, DecidableEq

/-- `disabledForLimit.add(user)` on the JS Set, modelled on a list without
duplicates (send.js line 299). -/
def addUser (dis : List String) (u : String) : List String :=
  if dis.contains u then dis else u :: dis

/-- The outcome of one message's batch pipeline: the recorded result, the
disabled set after the pipeline, and the accounts on which a delivery was
attempted for this message. -/
structure BatchStep where
  item : BatchItem
  disabled : List String
  attempts : List Account
deriving Repr, DecidableEq

/-- The per-message batch pipeline of send.js lines 262-388: pick an account
starting at the message index (fail "All accounts exhausted" when none);
attempt once; on success record the sender and id; on a daily-limit failure
mark the account disabled, pick one fallback from index `i+1` and attempt it
once (recording a reassigned success, the fallback's surfaced failure, or an
exhausted failure when no fallback exists); on any other failure record the
surfaced reason with no further attempt.  `tr n acc` is the transport's
answer to this message's n-th call, made on account `acc`. -/
def batchOne (tr : Nat → Account → SendResult) (pool : List Account)
    (dis : List String) (i : Nat) (rcpt : String) : BatchStep :=
  match pick pool dis i with
  | none =>
    ⟨{ ok := false, recipient := rcpt,
       error := some "All accounts exhausted (daily limit)" }, dis, []⟩
  | some acc =>
    match sendOnceWithAccount acc (tr 0 acc) with
    | .okOut _ mid =>
      ⟨{ ok := true, recipient := rcpt, sender := some acc.user,
         id := some mid }, dis, [acc]⟩
    | .failOut _ e cls =>
      if cls.reason = "Daily limit" then
        let dis' := addUser dis acc.user
        match pick pool dis' (i + 1) with
        | some fb =>
          match sendOnceWithAccount fb (tr 1 fb) with
          | .okOut _ mid2 =>
            ⟨{ ok := true, recipient := rcpt, sender := some fb.user,
               id := some mid2, reassigned := true }, dis', [acc, fb]⟩
          | .failOut _ e2 cls2 =>
            ⟨{ ok := false, recipient := rcpt,
               error := some (surfaceReason cls2 e2) }, dis', [acc, fb]⟩
        | none =>
          ⟨{ ok := false, recipient := rcpt,
             error := some "All accounts exhausted (daily limit)" }, dis', [acc]⟩
      else
        ⟨{ ok := false, recipient := rcpt,
           error := some (surfaceReason cls e) }, dis, [acc]⟩

/-- The batch dispatch over all messages (send.js lines 261-389): message `i`
runs the per-message pipeline with the disabled set as left by the earlier
pipelines (the JS runs the pipelines concurrently over one shared set; this
threads them in message order, and the per-message facts below are proved for
an arbitrary incoming disabled set, so they hold under any interleaving).
Returns the results in message order, the final disabled set, and all
transport attempts made. -/
def batchAux (tr : Nat → Nat → Account → SendResult) (pool : List Account) :
    Nat → List String → List String → List BatchItem × List String × List Account
  | _i, [], dis => ([], dis, [])
  | i, rcpt :: rest, dis =>
    let st := batchOne (tr i) pool dis i rcpt
    let p := batchAux tr pool (i + 1) rest st.disabled
    (st.item :: p.1, p.2.1, st.attempts ++ p.2.2)

/-- Batch dispatch of a request, messages indexed from 0 with an initially
empty disabled set (send.js line 243). -/
def batchSend (tr : Nat → Nat → Account → SendResult) (pool : List Account)
    (rcpts : List String) : List BatchItem × List String × List Account :=
  batchAux tr pool 0 rcpts []

/-- Every branch of the per-message pipeline records the submitted recipient. -/
theorem batchOne_item_recipient (tr : Nat → Account → SendResult)
    (pool : List Account) (dis : List String) (i : Nat) (rcpt : String) :
    (batchOne tr pool dis i rcpt).item.recipient = rcpt := by
  simp only [batchOne]
  (repeat' split) <;> rfl

/-- Every branch of the per-message pipeline ends in a terminal recorded
outcome: a success or a captured failure with an error string. -/
theorem batchOne_terminal (tr : Nat → Account → SendResult)
    (pool : List Account) (dis : List String) (i : Nat) (rcpt : String) :
    (batchOne tr pool dis i rcpt).item.ok = true ∨
      ((batchOne tr pool dis i rcpt).item.ok = false ∧
        (batchOne tr pool dis i rcpt).item.error.isSome = true) := by
  simp only [batchOne]
  (repeat' split) <;> simp

/-- The per-message pipeline only ever adds to the disabled set. -/
theorem batchOne_disabled_mono (tr : Nat → Account → SendResult)
    (pool : List Account) (dis : List String) (i : Nat) (rcpt : String)
    (u : String) (hu : u ∈ dis) : u ∈ (batchOne tr pool dis i rcpt).disabled := by
  simp only [batchOne, addUser]
  (repeat' split) <;> simp_all

/-- Adding a user to the disabled set makes it a member. -/
theorem addUser_self_mem (dis : List String) (u : String) : u ∈ addUser dis u := by
  unfold addUser
  split_ifs with h
  · simpa using h
  · exact List.mem_cons_self u dis

/-- C2: in batch mode every message is attempted on at most two accounts;
when two are attempted they have distinct users and the second attempt exists
only because the first failed with the daily-limit classification; if the
fallback attempt also fails the message is recorded as a terminal failure
with the fallback's surfaced reason, and if no fallback is available after a
daily-limit failure the message is recorded as a terminal exhausted failure —
in both cases with no further reassignment (the attempt list is already
complete). -/
theorem batch_at_most_two_distinct_accounts
    (tr : Nat → Account → SendResult) (pool : List Account)
    (dis : List String) (i : Nat) (rcpt : String) :
    (batchOne tr pool dis i rcpt).attempts.length ≤ 2 ∧
    (∀ a b, (batchOne tr pool dis i rcpt).attempts = [a, b] →
      a.user ≠ b.user ∧
      ∃ e, tr 0 a = .failure e ∧ (classify e).reason = "Daily limit") ∧
    (∀ a b e2, (batchOne tr pool dis i rcpt).attempts = [a, b] →
      tr 1 b = .failure e2 →
      (batchOne tr pool dis i rcpt).item.ok = false ∧
      (batchOne tr pool dis i rcpt).item.error = some (surfaceReason (classify e2) e2)) ∧
    (∀ a e, (batchOne tr pool dis i rcpt).attempts = [a] →
      tr 0 a = .failure e → (classify e).reason = "Daily limit" →
      (batchOne tr pool dis i rcpt).item.ok = false ∧
      (batchOne tr pool dis i rcpt).item.error =
        some "All accounts exhausted (daily limit)") := by
  rcases hp : pick pool dis i with _ | acc
  · refine ⟨?_, ?_, ?_, ?_⟩
    · simp [batchOne, hp]
    · intro a b hab
      simp [batchOne, hp] at hab
    · intro a b e2 hab
      simp [batchOne, hp] at hab
    · intro a e hab
      simp [batchOne, hp] at hab
  · rcases ht0 : tr 0 acc with mid | e
    · refine ⟨?_, ?_, ?_, ?_⟩
      · simp [batchOne, hp, ht0, sendOnceWithAccount]
      · intro a b hab
        simp [batchOne, hp, ht0, sendOnceWithAccount] at hab
      · intro a b e2 hab
        simp [batchOne, hp, ht0, sendOnceWithAccount] at hab
      · intro a e' hab hfe _hd
        have hacc : acc = a := by
          simpa [batchOne, hp, ht0, sendOnceWithAccount] using hab
        subst hacc
        rw [ht0] at hfe
        simp at hfe
    · by_cases hd : (classify e).reason = "Daily limit"
      · rcases hf : pick pool (addUser dis acc.user) (i + 1) with _ | fb
        · refine ⟨?_, ?_, ?_, ?_⟩
          · simp [batchOne, hp, ht0, sendOnceWithAccount, hd, hf]
          · intro a b hab
            simp [batchOne, hp, ht0, sendOnceWithAccount, hd, hf] at hab
          · intro a b e2 hab
            simp [batchOne, hp, ht0, sendOnceWithAccount, hd, hf] at hab
          · intro a e' _hab _hfe _hd'
            simp [batchOne, hp, ht0, sendOnceWithAccount, hd, hf]
        · have hfb : fb.user ∉ addUser dis acc.user :=
            pick_not_disabled pool (addUser dis acc.user) (i + 1) fb hf
          have hne : acc.user ≠ fb.user := by
            intro hu
            exact hfb (hu ▸ addUser_self_mem dis acc.user)
          rcases ht1 : tr 1 fb with mid2 | e2'
          · refine ⟨?_, ?_, ?_, ?_⟩
            · simp [batchOne, hp, ht0, sendOnceWithAccount, hd, hf, ht1]
            · intro a b hab
              have h2 : acc = a ∧ fb = b := by
                simpa [batchOne, hp, ht0, sendOnceWithAccount, hd, hf, ht1] using hab
              obtain ⟨h2a, h2b⟩ := h2
              subst h2a
              subst h2b
              exact ⟨hne, e, ht0, hd⟩
            · intro a b e2 hab ht1'
              have h2 : acc = a ∧ fb = b := by
                simpa [batchOne, hp, ht0, sendOnceWithAccount, hd, hf, ht1] using hab
              obtain ⟨h2a, h2b⟩ := h2
              subst h2a
              subst h2b
              rw [ht1] at ht1'
              simp at ht1'
            · intro a e' hab _hfe _hd'
              simp [batchOne, hp, ht0, sendOnceWithAccount, hd, hf, ht1] at hab
          · refine ⟨?_, ?_, ?_, ?_⟩
            · simp [batchOne, hp, ht0, sendOnceWithAccount, hd, hf, ht1]
            · intro a b hab
              have h2 : acc = a ∧ fb = b := by
                simpa [batchOne, hp, ht0, sendOnceWithAccount, hd, hf, ht1] using hab
              obtain ⟨h2a, h2b⟩ := h2
              subst h2a
              subst h2b
              exact ⟨hne, e, ht0, hd⟩
            · intro a b e2 hab ht1'
              have h2 : acc = a ∧ fb = b := by
                simpa [batchOne, hp, ht0, sendOnceWithAccount, hd, hf, ht1] using hab
              obtain ⟨h2a, h2b⟩ := h2
              subst h2a
              subst h2b
              rw [ht1] at ht1'
              have he2 : e2' = e2 := by
                simpa using ht1'
              subst he2
              simp [batchOne, hp, ht0, sendOnceWithAccount, hd, hf, ht1]
            · intro a e' hab _hfe _hd'
              simp [batchOne, hp, ht0, sendOnceWithAccount, hd, hf, ht1] at hab
      · refine ⟨?_, ?_, ?_, ?_⟩
        · simp [batchOne, hp, ht0, sendOnceWithAccount, hd]
        · intro a b hab
          simp [batchOne, hp, ht0, sendOnceWithAccount, hd] at hab
        · intro a b e2 hab
          simp [batchOne, hp, ht0, sendOnceWithAccount, hd] at hab
        · intro a e' hab hfe hd'
          have hacc : acc = a := by
            simpa [batchOne, hp, ht0, sendOnceWithAccount, hd] using hab
          subst hacc
          rw [ht0] at hfe
          have he : e = e' := by simpa using hfe
          subst he
          exact absurd hd' hd

/-- Witness for C2 at a concrete input: first account fails with the daily
limit, the fallback fails with a 550; the message is recorded as a terminal
failure carrying the fallback's surfaced reason. -/
theorem batch_at_most_two_distinct_accounts_witness :
    (batchOne
        (fun n _ => if n = 0 then .failure ⟨some 550, "Daily user sending limit exceeded"⟩
          else .failure ⟨some 550, "mailbox unavailable"⟩)
        [⟨"PRIMARY", "a@x.com", "p1"⟩, ⟨"BACKUP_A", "b@x.com", "p2"⟩]
        [] 0 "r@x.com").item.ok = false ∧
    (batchOne
        (fun n _ => if n = 0 then .failure ⟨some 550, "Daily user sending limit exceeded"⟩
          else .failure ⟨some 550, "mailbox unavailable"⟩)
        [⟨"PRIMARY", "a@x.com", "p1"⟩, ⟨"BACKUP_A", "b@x.com", "p2"⟩]
        [] 0 "r@x.com").item.error =
      some (surfaceReason (classify ⟨some 550, "mailbox unavailable"⟩)
        ⟨some 550, "mailbox unavailable"⟩) :=
  (batch_at_most_two_distinct_accounts
    (fun n _ => if n = 0 then .failure ⟨some 550, "Daily user sending limit exceeded"⟩
      else .failure ⟨some 550, "mailbox unavailable"⟩)
    [⟨"PRIMARY", "a@x.com", "p1"⟩, ⟨"BACKUP_A", "b@x.com", "p2"⟩]
    [] 0 "r@x.com").2.2.1
    ⟨"PRIMARY", "a@x.com", "p1"⟩ ⟨"BACKUP_A", "b@x.com", "p2"⟩
    ⟨some 550, "mailbox unavailable"⟩ (by decide) (by decide)

/-- C3 (amended): within a single batch request, quota marking is monotonic
and sticky — the per-message pipeline never removes a user from the disabled
set, `pick` never returns an account whose user is in the disabled set, and
the set only grows along the whole batch. -/
theorem quota_marking_monotone_within_request :
    (∀ (tr : Nat → Account → SendResult) (pool : List Account)
      (dis : List String) (i : Nat) (rcpt : String) (u : String),
      u ∈ dis → u ∈ (batchOne tr pool dis i rcpt).disabled) ∧
    (∀ (pool : List Account) (dis : List String) (s : Nat) (a : Account),
      pick pool dis s = some a → a.user ∉ dis) ∧
    (∀ (tr : Nat → Nat → Account → SendResult) (pool : List Account)
      (i : Nat) (rcpts : List String) (dis : List String) (u : String),
      u ∈ dis → u ∈ (batchAux tr pool i rcpts dis).2.1) := by
  refine ⟨batchOne_disabled_mono, pick_not_disabled, ?_⟩
  intro tr pool i rcpts
  induction rcpts generalizing i with
  | nil =>
    intro dis u hu
    simpa [batchAux] using hu
  | cons r rest ih =>
    intro dis u hu
    simp only [batchAux]
    exact ih (i + 1) (batchOne (tr i) pool dis i r).disabled u
      (batchOne_disabled_mono (tr i) pool dis i r u hu)

/-- Witness for the amended C3 at a concrete input: with "a@x.com" disabled,
`pick` returns the second account, whose user is not the disabled one. -/
theorem quota_marking_monotone_within_request_witness :
    (Account.mk "BACKUP_A" "b@x.com" "p2").user ∉ ["a@x.com"] :=
  quota_marking_monotone_within_request.2.1
    [⟨"PRIMARY", "a@x.com", "p1"⟩, ⟨"BACKUP_A", "b@x.com", "p2"⟩]
    ["a@x.com"] 0 ⟨"BACKUP_A", "b@x.com", "p2"⟩ (by decide)

/-- Counterexample to C3 as stated: the disabled set is constructed afresh
inside the handler for every request (send.js line 243, `const
disabledForLimit = new Set()`), so the marking is request-scoped, not
process-lifetime.  Concretely: in one batch request the first account fails
with the daily limit and its user "a@x.com" ends up marked (first conjunct);
a later request in the same process starts from the empty disabled set, and
its first `pick` call returns that very account again (second conjunct) —
with no process restart in between. -/
theorem quota_marking_not_process_lifetime :
    "a@x.com" ∈ (batchOne
        (fun _ _ => .failure ⟨some 550, "Daily user sending limit exceeded"⟩)
        [⟨"PRIMARY", "a@x.com", "p1"⟩, ⟨"BACKUP_A", "b@x.com", "p2"⟩]
        [] 0 "r@x.com").disabled ∧
    pick [⟨"PRIMARY", "a@x.com", "p1"⟩, ⟨"BACKUP_A", "b@x.com", "p2"⟩] [] 0 =
      some ⟨"PRIMARY", "a@x.com", "p1"⟩ := by
  constructor
  · decide
  · decide

theorem batchAux_shape (tr : Nat → Nat → Account → SendResult) (pool : List Account) :
    ∀ (rcpts : List String) (i : Nat) (dis : List String),
      (batchAux tr pool i rcpts dis).1.length = rcpts.length ∧
      (∀ j (hj1 : j < (batchAux tr pool i rcpts dis).1.length) (hj2 : j < rcpts.length),
        ((batchAux tr pool i rcpts dis).1.get ⟨j, hj1⟩).recipient = rcpts.get ⟨j, hj2⟩) ∧
      (∀ it ∈ (batchAux tr pool i rcpts dis).1,
        it.ok = true ∨ (it.ok = false ∧ it.error.isSome = true)) := by
  intro rcpts
  induction rcpts with
  | nil =>
    intro i dis
    refine ⟨rfl, ?_, ?_⟩ <;> simp [batchAux]
  | cons r rest ih =>
    intro i dis
    obtain ⟨ihlen, ihrec, ihterm⟩ := ih (i + 1) (batchOne (tr i) pool dis i r).disabled
    refine ⟨?_, ?_, ?_⟩
    · simp [batchAux, ihlen]
    · intro j hj1 hj2
      cases j with
      | zero =>
        simpa [batchAux] using batchOne_item_recipient (tr i) pool dis i r
      | succ k =>
        have h1 : k < (batchAux tr pool (i + 1) rest
            (batchOne (tr i) pool dis i r).disabled).1.length := by
          simp only [batchAux, List.length_cons] at hj1
          omega
        have h2 : k < rest.length := by
          simp only [List.length_cons] at hj2
          omega
        have := ihrec k h1 h2
        simpa [batchAux] using this
    · intro it hit
      simp only [batchAux, List.mem_cons] at hit
      rcases hit with h | h
      · subst h
        exact batchOne_terminal (tr i) pool dis i r
      · exact ihterm it h

/-- C7: batch dispatch never aborts early and never lets one message's
failure affect another's entry: the results list has exactly one entry per
message, in message order with each entry carrying its own recipient, and
every entry is terminal (a success, or a captured failure with an error
string); moreover each message's pipeline reaches such a terminal outcome
from any disabled-set state, i.e. regardless of what the other concurrent
pipelines did. -/
theorem batch_every_message_has_terminal_result
    (tr : Nat → Nat → Account → SendResult) (pool : List Account)
    (rcpts : List String) :
    (batchSend tr pool rcpts).1.length = rcpts.length ∧
    (∀ j (hj1 : j < (batchSend tr pool rcpts).1.length) (hj2 : j < rcpts.length),
      ((batchSend tr pool rcpts).1.get ⟨j, hj1⟩).recipient = rcpts.get ⟨j, hj2⟩) ∧
    (∀ it ∈ (batchSend tr pool rcpts).1,
      it.ok = true ∨ (it.ok = false ∧ it.error.isSome = true)) ∧
    (∀ (tr1 : Nat → Account → SendResult) (dis : List String) (i : Nat) (rcpt : String),
      (batchOne tr1 pool dis i rcpt).item.ok = true ∨
        ((batchOne tr1 pool dis i rcpt).item.ok = false ∧
          (batchOne tr1 pool dis i rcpt).item.error.isSome = true)) := by
  obtain ⟨h1, h2, h3⟩ := batchAux_shape tr pool rcpts 0 []
  exact ⟨h1, h2, h3, fun tr1 dis i rcpt => batchOne_terminal tr1 pool dis i rcpt⟩

/-- Witness for C7 at a concrete input: a 2-message batch over a healthy
pool yields exactly 2 entries and the first entry carries the first
recipient. -/
theorem batch_every_message_has_terminal_result_witness :
    (batchSend (fun _ _ _ => .success "mid-1")
        [⟨"PRIMARY", "a@x.com", "p1"⟩, ⟨"BACKUP_A", "b@x.com", "p2"⟩]
        ["r1@x.com", "r2@x.com"]).1.length = 2 ∧
    ∃ h1 : 0 < (batchSend (fun _ _ _ => .success "mid-1")
        [⟨"PRIMARY", "a@x.com", "p1"⟩, ⟨"BACKUP_A", "b@x.com", "p2"⟩]
        ["r1@x.com", "r2@x.com"]).1.length,
      ((batchSend (fun _ _ _ => .success "mid-1")
        [⟨"PRIMARY", "a@x.com", "p1"⟩, ⟨"BACKUP_A", "b@x.com", "p2"⟩]
        ["r1@x.com", "r2@x.com"]).1.get ⟨0, h1⟩).recipient = "r1@x.com" := by
  have h := batch_every_message_has_terminal_result (fun _ _ _ => .success "mid-1")
    [⟨"PRIMARY", "a@x.com", "p1"⟩, ⟨"BACKUP_A", "b@x.com", "p2"⟩]
    ["r1@x.com", "r2@x.com"]
  have hlen := h.1
  have h1 : 0 < (batchSend (fun _ _ _ => .success "mid-1")
      [⟨"PRIMARY", "a@x.com", "p1"⟩, ⟨"BACKUP_A", "b@x.com", "p2"⟩]
      ["r1@x.com", "r2@x.com"]).1.length := by
    rw [hlen]; decide
  exact ⟨by simpa using hlen, h1, h.2.1 0 h1 (by decide)⟩

theorem singleAux_sent_recipient (tr : Account → SendResult) (rcpt : String) :
    ∀ (pool : List Account) (last : Option TransportError) (rec snd idm : String),
      (singleAux tr rcpt pool last).1 = .sent rec snd idm → rec = rcpt := by
  intro pool
  induction pool with
  | nil =>
    intro last rec snd idm h
    simp [singleAux] at h
  | cons acc rest ih =>
    intro last rec snd idm h
    cases ht : tr acc with
    | success mid =>
      simp [singleAux, sendOnceWithAccount, ht] at h
      exact h.1.symm
    | failure e =>
      by_cases hd : (classify e).reason = "Daily limit"
      · simp [singleAux, sendOnceWithAccount, ht, hd] at h
        exact ih (some e) rec snd idm h
      · simp [singleAux, sendOnceWithAccount, ht, hd] at h

/-- C9: the recipient field round-trips unchanged — a successful single send
reports exactly the recipient supplied in the request, and every batch entry
(successful or not) carries exactly the recipient of its message. -/
theorem recipient_round_trip :
    (∀ (tr : Account → SendResult) (rcpt : String) (pool : List Account)
      (rec snd idm : String),
      (singleSend tr rcpt pool).1 = .sent rec snd idm → rec = rcpt) ∧
    (∀ (tr : Nat → Account → SendResult) (pool : List Account)
      (dis : List String) (i : Nat) (rcpt : String),
      (batchOne tr pool dis i rcpt).item.recipient = rcpt) :=
  ⟨fun tr rcpt pool rec snd idm h =>
    singleAux_sent_recipient tr rcpt pool none rec snd idm h,
   fun tr pool dis i rcpt => batchOne_item_recipient tr pool dis i rcpt⟩

/-- Witness for C9 at a concrete input: a successful single send on the
primary account reports the supplied recipient. -/
theorem recipient_round_trip_witness : ("r@x.com" : String) = "r@x.com" :=
  recipient_round_trip.1 (fun _ => .success "mid-1") "r@x.com"
    [⟨"PRIMARY", "a@x.com", "p1"⟩] "r@x.com" "a@x.com" "mid-1" (by decide)

/-- Whitespace as in the JS `\s` character class (modelled by the common
ASCII whitespace characters). -/
def isWs (c : Char) : Bool := c.isWhitespace

/-- The JS `String.prototype.trim`: drop whitespace from both ends. -/
def trimChars (l : List Char) : List Char :=
  ((l.dropWhile isWs).reverse.dropWhile isWs).reverse

/-- A character admitted by the regex class `[^\s@]`. -/
def emailChar (c : Char) : Bool := !isWs c && c != '@'

/-- Split a character list at the first occurrence of `ch`, when present. -/
def splitAtChar (ch : Char) : List Char → Option (List Char × List Char)
  | [] => none
  | c :: rest =>
    if c = ch then some ([], rest)
    else
      match splitAtChar ch rest with
      | some (a, b) => some (c :: a, b)
      | none => none

/-- `isValidEmail` of send.js lines 60-62: whether the trimmed string matches
the anchored regex `[^\s@]+@[^\s@]+\.[^\s@]+` — a nonempty local part
without whitespace or `@`, a single `@` (the local part cannot contain one,
so the match splits at the first), and a domain of such characters containing
a dot that is neither its first nor its last character. -/
def isValidEmail (s : String) : Bool :=
  let t := trimChars s.toList
  match splitAtChar '@' t with
  | none => false
  | some (localPart, domain) =>
    !localPart.isEmpty && localPart.all emailChar &&
    !domain.isEmpty && domain.all emailChar &&
    ((domain.drop 1).dropLast.contains '.')

/-- `b64ApproxBytes` of send.js lines 63-65: `Math.floor(length * 0.75)`,
which for the exact dyadic factor 0.75 is `3 * length / 4` rounded down. -/
def b64ApproxBytes (b64 : String) : Nat :=
  b64.length * 3 / 4

/-- One message of the request body; each field is absent or a string, and
`recipient` is the JS field `to`. -/
structure Msg where
  recipient : Option String
  subject : Option String
  body : Option String
  pdf : Option String
  filename : Option String
  attachmentUrl : Option String
deriving Repr, DecidableEq

/-- JS truthiness for an optional string field: present and nonempty. -/
def truthy : Option String → Bool
  | none => false
  | some s => !s.isEmpty

/-- The three validation rejections of the handler's validation loop
(send.js lines 161-181), each tagged with the failing message index. -/
inductive ValidationError where
  | missingFields (i : Nat)
  | invalidRecipient (i : Nat)
  | attachmentTooLarge (i : Nat)
deriving Repr, DecidableEq

/-- The HTTP status attached to each validation rejection. -/
def statusOf : ValidationError → Nat
  | .missingFields _ => 400
  | .invalidRecipient _ => 400
  | .attachmentTooLarge _ => 413

/-- One iteration of the validation loop (send.js lines 161-181): missing
required fields, then syntactic recipient check, then the attachment size
ceiling for an inline pdf. -/
def checkMsg (maxBytes : Nat) (i : Nat) (m : Msg) : Option ValidationError :=
  if !(truthy m.subject && truthy m.body && truthy m.recipient &&
      (truthy m.pdf || truthy m.attachmentUrl)) then
    some (.missingFields i)
  else if !isValidEmail (m.recipient.getD "") then
    some (.invalidRecipient i)
  else if truthy m.pdf ∧ b64ApproxBytes (m.pdf.getD "") > maxBytes then
    some (.attachmentTooLarge i)
  else
    none

/-- The whole validation loop: first failing message wins; `none` when every
message passes. -/
def validateAll (maxBytes : Nat) : Nat → List Msg → Option ValidationError
  | _i, [] => none
  | i, m :: rest =>
    match checkMsg maxBytes i m with
    | some e => some e
    | none => validateAll maxBytes (i + 1) rest

/-- The two outcomes of a batch request: a 4xx validation rejection issued
before any dispatch, or the processed per-message results. -/
inductive BatchResp where
  | rejected (e : ValidationError)
  | processed (items : List BatchItem)
deriving Repr, DecidableEq

/-- The batch branch of the handler (send.js lines 161-181 and 240-409):
validate every message first and reject the whole request on the first
failure; only when all pass, run the batch dispatch.  The second component
collects every transport attempt made while handling the request. -/
def handleBatch (maxBytes : Nat) (tr : Nat → Nat → Account → SendResult)
    (pool : List Account) (msgs : List Msg) : BatchResp × List Account :=
  match validateAll maxBytes 0 msgs with
  | some e => (.rejected e, [])
  | none =>
    let b := batchSend tr pool (msgs.map (fun m => m.recipient.getD ""))
    (.processed b.1, b.2.2)

/-- Whether `checkMsg` fires does not depend on the reported index. -/
theorem checkMsg_none_index (maxBytes : Nat) (i : Nat) (m : Msg) :
    checkMsg maxBytes i m = none ↔ checkMsg maxBytes 0 m = none := by
  unfold checkMsg
  split_ifs <;> simp

/-- The validation loop passes exactly when every message passes. -/
theorem validateAll_eq_none_iff (maxBytes : Nat) :
    ∀ (i : Nat) (msgs : List Msg),
      validateAll maxBytes i msgs = none ↔
        ∀ m ∈ msgs, checkMsg maxBytes 0 m = none := by
  intro i msgs
  induction msgs generalizing i with
  | nil => simp [validateAll]
  | cons m rest ih =>
    cases hc : checkMsg maxBytes i m with
    | some e =>
      simp only [validateAll, hc]
      constructor
      · intro h
        cases h
      · intro h
        have := (checkMsg_none_index maxBytes i m).mpr (h m (List.mem_cons_self m rest))
        rw [this] at hc
        cases hc
    | none =>
      have h0 : checkMsg maxBytes 0 m = none := (checkMsg_none_index maxBytes i m).mp hc
      simp only [validateAll, hc]
      rw [ih (i + 1)]
      constructor
      · intro h m' hm'
        rcases List.mem_cons.mp hm' with rfl | hm'
        · exact h0
        · exact h m' hm'
      · intro h m' hm'
        exact h m' (List.mem_cons_of_mem m hm')

/-- Every validation rejection is a 4xx. -/
theorem statusOf_4xx (e : ValidationError) :
    statusOf e = 400 ∨ statusOf e = 413 := by
  cases e <;> simp [statusOf]

/-- C10: validation is all-or-nothing across a batch — if any message in the
batch fails a validation check (missing required field, invalid recipient,
or attachment over the size ceiling), the whole request is rejected with a
4xx error and no delivery is attempted for any message, including the valid
ones (the set of transport attempts is empty). -/
theorem invalid_batch_rejected_before_dispatch
    (maxBytes : Nat) (tr : Nat → Nat → Account → SendResult)
    (pool : List Account) (msgs : List Msg)
    (h : ∃ m ∈ msgs, checkMsg maxBytes 0 m ≠ none) :
    ∃ e, handleBatch maxBytes tr pool msgs = (.rejected e, []) ∧
      (statusOf e = 400 ∨ statusOf e = 413) := by
  cases hv : validateAll maxBytes 0 msgs with
  | none =>
    obtain ⟨m, hm, hne⟩ := h
    exact absurd ((validateAll_eq_none_iff maxBytes 0 msgs).mp hv m hm) hne
  | some e =>
    refine ⟨e, ?_, statusOf_4xx e⟩
    simp [handleBatch, hv]

/-- Witness for C10 at a concrete input: the second message has no subject,
so the 2-message batch is rejected with a 400 before any transport attempt,
even though the first message is valid. -/
theorem invalid_batch_rejected_before_dispatch_witness :
    ∃ e, handleBatch 100 (fun _ _ _ => .success "mid-1")
        [⟨"PRIMARY", "a@x.com", "p1"⟩]
        [⟨some "ok@b.co", some "s", some "b", some "QUJD", none, none⟩,
         ⟨some "ok@b.co", none, some "b", some "QUJD", none, none⟩] =
      (.rejected e, []) ∧
      (statusOf e = 400 ∨ statusOf e = 413) :=
  invalid_batch_rejected_before_dispatch 100 (fun _ _ _ => .success "mid-1")
    [⟨"PRIMARY", "a@x.com", "p1"⟩]
    [⟨some "ok@b.co", some "s", some "b", some "QUJD", none, none⟩,
     ⟨some "ok@b.co", none, some "b", some "QUJD", none, none⟩]
    ⟨⟨some "ok@b.co", none, some "b", some "QUJD", none, none⟩,
      by decide, by decide⟩

end EmailProxy
